import Mathlib

/-!
Verification of the `PostBrowser` pagination component (`src/App.tsx`).

The component's pure logic is shallowly embedded here:
* `Post` and `BrowserState` mirror the React state (`posts`, `loading`,
  `error`, `currentPage`, `isMobile`).
* JavaScript numbers only ever hold small integers in this program, so they
  are modelled as `Nat`/`Int`; JavaScript strings are modelled as `String`
  (and, for `truncateText`, as `List Char`, one entry per UTF-16 code unit).
* The fetch effect's observable outcomes are modelled by `FetchResponse` and
  applied to the state by `fetchPosts`; the resize listener, `handlePageChange`
  and the fetch completion generate the step relation `Reachable`.
-/

/-- A fetched record: `interface Post { id; title; body; userId }`. -/
structure Post where
  id : Int
  title : String
  body : String
  userId : Int
deriving DecidableEq

/-- The component state: the five `useState` hooks of `App`. -/
structure BrowserState where
  posts : List Post
  loading : Bool
  error : Option String
  currentPage : Nat
  isMobile : Bool
deriving DecidableEq

/-- The initial state of the hooks: `useState([])`, `useState(true)`,
`useState(null)`, `useState(1)`, `useState(false)`. -/
def initState : BrowserState :=
  { posts := [], loading := true, error := none, currentPage := 1, isMobile := false }

/-- `const postsPerPage = isMobile ? 4 : 8`. -/
def postsPerPage (isMobile : Bool) : Nat := if isMobile then 4 else 8

/-- `const maxVisiblePages = isMobile ? 3 : 5` (inside `getPageNumbers`). -/
def maxVisiblePages (isMobile : Bool) : Nat := if isMobile then 3 else 5

/-- `Math.ceil(len / ppp)` for natural `len` and positive `ppp`,
written with natural division: `(len + ppp - 1) / ppp`. -/
def totalPagesFn (len ppp : Nat) : Nat := (len + ppp - 1) / ppp

/-- `const totalPages = Math.ceil(posts.length / postsPerPage)`. -/
def totalPages (s : BrowserState) : Nat :=
  totalPagesFn s.posts.length (postsPerPage s.isMobile)

/-- The slice shown for page `page` (1-based) with page size `ppp`:
`posts.slice(startIndex, startIndex + ppp)` where
`startIndex = (page - 1) * ppp`. -/
def pageSlice (posts : List Post) (ppp page : Nat) : List Post :=
  (posts.drop ((page - 1) * ppp)).take ppp

/-- `const currentPosts = posts.slice(startIndex, startIndex + postsPerPage)`. -/
def currentPosts (s : BrowserState) : List Post :=
  pageSlice s.posts (postsPerPage s.isMobile) s.currentPage

/-- `handlePageChange(page)`: `if (page >= 1 && page <= totalPages)
setCurrentPage(page)` (the smooth-scroll side effect touches no state).
The argument is an `Int` because the caller's arithmetic
(`currentPage - 1`) lives in JavaScript's signed numbers. -/
def handlePageChange (page : Int) (s : BrowserState) : BrowserState :=
  if 1 ≤ page ∧ page ≤ (totalPages s : Int) then
    { s with currentPage := page.toNat }
  else s

/-- The loop `for (let i = s; i <= e; i++) pages.push(i)`, with the
iteration count `(e + 1 - s).toNat` made explicit as fuel. -/
def pushRangeAux : Nat → Int → List Int
  | 0, _ => []
  | n + 1, s => s :: pushRangeAux n (s + 1)

/-- All integers from `s` to `e` inclusive, empty when `e < s`. -/
def pushRange (s e : Int) : List Int := pushRangeAux (e + 1 - s).toNat s

/-- `getPageNumbers()`: the sliding window of visible page buttons.
`startPage = Math.max(1, currentPage - Math.floor(maxVisiblePages / 2))`;
`endPage = Math.min(totalPages, startPage + maxVisiblePages - 1)`;
if `endPage - startPage + 1 < maxVisiblePages` then
`startPage = Math.max(1, endPage - maxVisiblePages + 1)`; finally the loop
pushes `startPage .. endPage`. -/
def getPageNumbers (s : BrowserState) : List Int :=
  let maxVisible : Int := maxVisiblePages s.isMobile
  let startPage : Int := max 1 ((s.currentPage : Int) - maxVisible / 2)
  let endPage : Int := min (totalPages s : Int) (startPage + maxVisible - 1)
  let startPage' : Int :=
    if endPage - startPage + 1 < maxVisible then max 1 (endPage - maxVisible + 1)
    else startPage
  pushRange startPage' endPage

/-- `truncateText(text, maxLength)`: `text.length > maxLength ?
text.substring(0, maxLength) + "..." : text`, over the JavaScript string
viewed as its list of code units. -/
def truncateText (text : List Char) (maxLength : Nat) : List Char :=
  if maxLength < text.length then text.take maxLength ++ ['.', '.', '.']
  else text

/-- The fixed card palette inside `getPostColorClass`. -/
def colors : List String :=
  ["post-orange", "post-teal", "post-cyan", "post-red", "post-purple", "post-brown"]

/-- `getPostColorClass(index)`: `colors[index % colors.length]`.
A JavaScript array read can yield `undefined`, so it is modelled as an
optional lookup. -/
def getPostColorClass (index : Nat) : Option String :=
  colors.get? (index % colors.length)

/-- The observable outcome of the one `fetch` call:
a response whose body parsed as `data` (with its `ok` flag), an `Error`
thrown during transport or parsing (carrying its `message`), or a thrown
value that is not an `Error`. -/
inductive FetchResponse where
  | http (ok : Bool) (data : List Post)
  | throwErr (msg : String)
  | throwNonError
deriving DecidableEq

/-- The `try` block of `fetchPosts`: a non-`ok` response throws
`new Error("Failed to fetch posts")`; any thrown value reaches the `catch`
as `some message` when it is an `Error` and `none` otherwise. -/
def fetchTry : FetchResponse → Except (Option String) (List Post)
  | .http ok data => if ok then .ok data else .error (some "Failed to fetch posts")
  | .throwErr m => .error (some m)
  | .throwNonError => .error none

/-- The whole `fetchPosts` async function applied to the state: on success
`setPosts(data.slice(0, 100))`; in the `catch`,
`setError(err instanceof Error ? err.message : "An error occurred")`;
the `finally` clause ends with `setLoading(false)` (the initial
`setLoading(true)` re-asserts the value `loading` already has). -/
def fetchPosts (r : FetchResponse) (s : BrowserState) : BrowserState :=
  match fetchTry r with
  | .ok data => { s with posts := data.take 100, loading := false }
  | .error e => { s with error := some (e.getD "An error occurred"), loading := false }

/-- The states the component can reach: the initial state, then any
interleaving of resize events (`checkMobile` with the current window
width), the single fetch completion (only while `loading`, since the fetch
effect runs exactly once and starts in the loading state), and page
navigation clicks. -/
inductive Reachable : BrowserState → Prop
  | init : Reachable initState
  | resize (w : Nat) (s : BrowserState) :
      Reachable s → Reachable { s with isMobile := decide (w ≤ 768) }
  | fetch (r : FetchResponse) (s : BrowserState) :
      Reachable s → s.loading = true → Reachable (fetchPosts r s)
  | nav (n : Int) (s : BrowserState) :
      Reachable s → Reachable (handlePageChange n s)

/-- A concrete record used to build concrete states. -/
def post0 : Post := { id := 1, title := "t", body := "b", userId := 1 }

/-- The sliding-window computation exactly as the specification words it,
taking `totalPages`, `maxVisiblePageButtons` and `currentPage` as inputs. -/
def visiblePageNumbersSpec (tp mv cp : Int) : List Int :=
  let startPage : Int := max 1 (cp - mv / 2)
  let endPage : Int := min tp (startPage + mv - 1)
  let startPage' : Int :=
    if endPage - startPage + 1 < mv then max 1 (endPage - mv + 1)
    else startPage
  pushRange startPage' endPage

/-- A paginated state with 100 posts on the wide layout (8 per page, so 13
pages) whose `currentPage` is 25; reachable by navigating to page 25 on the
narrow layout (25 pages) and then resizing to wide. -/
def wideState100 : BrowserState :=
  { posts := List.replicate 100 post0, loading := false, error := none,
    currentPage := 25, isMobile := false }

/-- A wide state on page 5 of 10 (80 posts, 8 per page). -/
def pagedState : BrowserState :=
  { posts := List.replicate 80 post0, loading := false, error := none,
    currentPage := 5, isMobile := false }

/-- A narrow state (4 per page, 4 posts, so one page) whose `currentPage`
is past the last page. -/
def overshotState : BrowserState :=
  { posts := List.replicate 4 post0, loading := false, error := none,
    currentPage := 2, isMobile := true }

/-- The pagination invariant of the specification: `currentPage` is at least
1 and, when at least one page exists, at most `totalPages`. -/
def pageInvariant (s : BrowserState) : Prop :=
  1 ≤ s.currentPage ∧ (1 ≤ totalPages s → s.currentPage ≤ totalPages s)

lemma pushRangeAux_length (n : Nat) : ∀ s : Int, (pushRangeAux n s).length = n := by
  induction n with
  | zero => intro s; rfl
  | succ m ih => intro s; simp [pushRangeAux, ih]

lemma mem_pushRangeAux (n : Nat) : ∀ s x : Int, x ∈ pushRangeAux n s ↔ s ≤ x ∧ x < s + n := by
  induction n with
  | zero => intro s x; simp [pushRangeAux]
  | succ m ih =>
    intro s x
    simp [pushRangeAux, ih]
    omega

lemma chain_pushRangeAux (n : Nat) :
    ∀ s : Int, List.Chain' (fun a b => b = a + 1) (pushRangeAux n s) := by
  induction n with
  | zero => intro s; simp [pushRangeAux]
  | succ m ih =>
    intro s
    cases m with
    | zero => simp [pushRangeAux]
    | succ k =>
      exact List.Chain'.cons rfl (ih (s + 1))

lemma pushRange_length (s e : Int) : (pushRange s e).length = (e + 1 - s).toNat :=
  pushRangeAux_length _ s

lemma mem_pushRange (s e x : Int) : x ∈ pushRange s e ↔ s ≤ x ∧ x ≤ e := by
  rw [pushRange, mem_pushRangeAux]
  omega

lemma chain_pushRange (s e : Int) :
    List.Chain' (fun a b => b = a + 1) (pushRange s e) :=
  chain_pushRangeAux _ s

lemma window_shape (mv tp cp sp ep sp' : Int)
    (hmv : mv = 3 ∨ mv = 5) (htp : 0 ≤ tp)
    (hsp : sp = max 1 (cp - mv / 2))
    (hep : ep = min tp (sp + mv - 1))
    (hsp' : sp' = if ep - sp + 1 < mv then max 1 (ep - mv + 1) else sp) :
    (pushRange sp' ep).length = (min mv tp).toNat ∧
    (1 ≤ cp → cp ≤ tp → cp ∈ pushRange sp' ep) := by
  rw [pushRange_length, mem_pushRange]
  by_cases hshort : ep - sp + 1 < mv
  · rw [if_pos hshort] at hsp'
    rcases hmv with h | h <;> subst h <;> omega
  · rw [if_neg hshort] at hsp'
    rcases hmv with h | h <;> subst h <;> omega

lemma visiblePageNumbersSpec_shape (tp mv cp : Int)
    (hmv : mv = 3 ∨ mv = 5) (htp : 0 ≤ tp) :
    List.Chain' (fun a b => b = a + 1) (visiblePageNumbersSpec tp mv cp) ∧
    (visiblePageNumbersSpec tp mv cp).length = (min mv tp).toNat ∧
    (1 ≤ cp → cp ≤ tp → cp ∈ visiblePageNumbersSpec tp mv cp) := by
  obtain ⟨hlen, hmem⟩ := window_shape mv tp cp _ _ _ hmv htp rfl rfl rfl
  exact ⟨chain_pushRange _ _, hlen, hmem⟩

/-- Claim C1 (amended): for every state, `getPageNumbers` returns a strictly
ascending contiguous run of length `min(maxVisiblePageButtons, totalPages)`,
and this run contains `currentPage` whenever `1 ≤ currentPage ≤ totalPages`. -/
theorem getPageNumbers_run_shape (s : BrowserState) :
    List.Chain' (fun a b => b = a + 1) (getPageNumbers s) ∧
    (getPageNumbers s).length = min (maxVisiblePages s.isMobile) (totalPages s) ∧
    (1 ≤ s.currentPage → s.currentPage ≤ totalPages s →
      (s.currentPage : Int) ∈ getPageNumbers s) := by
  have hmv : ((maxVisiblePages s.isMobile : Nat) : Int) = 3 ∨
      ((maxVisiblePages s.isMobile : Nat) : Int) = 5 := by
    cases s.isMobile <;> simp [maxVisiblePages]
  have hg : getPageNumbers s =
      visiblePageNumbersSpec (totalPages s) (maxVisiblePages s.isMobile) s.currentPage := rfl
  obtain ⟨hchain, hlen, hmem⟩ :=
    visiblePageNumbersSpec_shape (totalPages s) (maxVisiblePages s.isMobile) s.currentPage
      hmv (Int.natCast_nonneg _)
  rw [hg]
  refine ⟨hchain, ?_, ?_⟩
  · rw [hlen]; omega
  · intro h1 h2
    exact hmem (by omega) (by omega)

/-- Claim C1 witness: the run for the wide 80-post state at page 5 contains
page 5. -/
theorem getPageNumbers_run_shape_witness :
    ((pagedState.currentPage : Nat) : Int) ∈ getPageNumbers pagedState :=
  (getPageNumbers_run_shape pagedState).2.2 (by decide) (by decide)

/-- Claim C1 (counterexample): in the reachable state `wideState100`
(100 posts, wide layout, `currentPage = 25`), `totalPages = 13 ≥ 1` but the
returned run `[9, 10, 11, 12, 13]` does not contain `currentPage`. -/
theorem getPageNumbers_misses_currentPage :
    1 ≤ totalPages wideState100 ∧
    ¬ ((wideState100.currentPage : Nat) : Int) ∈ getPageNumbers wideState100 := by
  decide

lemma flatten_slices (ppp : Nat) :
    ∀ (n : Nat) (l : List Post),
      ((List.range n).map (fun i => (l.drop (i * ppp)).take ppp)).flatten =
        l.take (n * ppp) := by
  intro n
  induction n with
  | zero => intro l; simp
  | succ m ih =>
    intro l
    rw [List.range_succ, List.map_append, List.flatten_append, ih]
    have h2 : (m + 1) * ppp = m * ppp + ppp := by ring
    rw [h2, List.take_add]
    simp

/-- Claim C2: for non-empty `posts` and positive `postsPerPage`, the page
slices for pages `1 .. totalPages` concatenate to exactly `posts` (hence the
slices are ordered, index-disjoint, and their lengths sum to
`posts.length`). -/
theorem pageSlices_partition (posts : List Post) (ppp : Nat)
    (hne : posts ≠ []) (hppp : 0 < ppp) :
    ((List.range' 1 (totalPagesFn posts.length ppp)).map
        (fun p => pageSlice posts ppp p)).flatten = posts ∧
    ((List.range' 1 (totalPagesFn posts.length ppp)).map
        (fun p => (pageSlice posts ppp p).length)).sum = posts.length := by
  have key : ((List.range' 1 (totalPagesFn posts.length ppp)).map
      (fun p => pageSlice posts ppp p)).flatten =
      posts.take (totalPagesFn posts.length ppp * ppp) := by
    rw [List.range'_eq_map_range, List.map_map]
    have he : ((fun p => pageSlice posts ppp p) ∘ fun x => 1 + x) =
        fun i => (posts.drop (i * ppp)).take ppp := by
      funext i
      simp [Function.comp, pageSlice, Nat.add_sub_cancel_left]
    rw [he, flatten_slices]
  have hlen : posts.length ≤ totalPagesFn posts.length ppp * ppp := by
    have hl : 1 ≤ posts.length := List.length_pos.mpr hne
    unfold totalPagesFn
    have h1 := Nat.div_add_mod (posts.length + ppp - 1) ppp
    have h2 := Nat.mod_lt (posts.length + ppp - 1) hppp
    rw [Nat.mul_comm]
    generalize hP : ppp * ((posts.length + ppp - 1) / ppp) = P at h1 ⊢
    generalize hR : (posts.length + ppp - 1) % ppp = R at h1 h2
    omega
  have hfl : ((List.range' 1 (totalPagesFn posts.length ppp)).map
      (fun p => pageSlice posts ppp p)).flatten = posts := by
    rw [key, List.take_of_length_le hlen]
  refine ⟨hfl, ?_⟩
  have h3 := List.length_flatten ((List.range' 1 (totalPagesFn posts.length ppp)).map
      (fun p => pageSlice posts ppp p))
  rw [hfl, List.map_map] at h3
  exact h3.symm

/-- Claim C2 witness: three posts at two per page make two slices whose
concatenation is the original list. -/
theorem pageSlices_partition_witness :
    ((List.range' 1 (totalPagesFn (List.replicate 3 post0).length 2)).map
        (fun p => pageSlice (List.replicate 3 post0) 2 p)).flatten =
      List.replicate 3 post0 :=
  (pageSlices_partition (List.replicate 3 post0) 2 (by decide) (by decide)).1

/-- Claim C4: `handlePageChange(n)` leaves the state unchanged whenever
`n < 1` or `n > totalPages`, and for `1 ≤ n ≤ totalPages` it only replaces
`currentPage` by `n`. -/
theorem handlePageChange_frame (s : BrowserState) (n : Int) :
    ((n < 1 ∨ (totalPages s : Int) < n) → handlePageChange n s = s) ∧
    (1 ≤ n → n ≤ (totalPages s : Int) →
      handlePageChange n s = { s with currentPage := n.toNat }) := by
  constructor
  · intro h
    have hc : ¬ (1 ≤ n ∧ n ≤ (totalPages s : Int)) := by omega
    simp [handlePageChange, hc]
  · intro h1 h2
    simp [handlePageChange, h1, h2]

/-- Claim C4 witness: navigating to page 7 of 10 only changes `currentPage`;
navigating to page 11 of 10 changes nothing. -/
theorem handlePageChange_frame_witness :
    handlePageChange 7 pagedState = { pagedState with currentPage := 7 } ∧
    handlePageChange 11 pagedState = pagedState :=
  ⟨(handlePageChange_frame pagedState 7).2 (by decide) (by decide),
   (handlePageChange_frame pagedState 11).1 (Or.inr (by decide))⟩

/-- Claim C6: whenever `currentPage` exceeds `totalPages` (as after a resize
that shrinks the page count without re-clamping `currentPage`), the rendered
slice `currentPosts` is empty. -/
theorem currentPosts_empty_beyond_totalPages (s : BrowserState)
    (h : totalPages s < s.currentPage) : currentPosts s = [] := by
  have h4 : s.posts.length ≤ (s.currentPage - 1) * postsPerPage s.isMobile := by
    revert h
    unfold totalPages totalPagesFn postsPerPage
    cases hm : s.isMobile <;> simp only [if_true, if_false, Bool.false_eq_true] <;>
      intro h <;> omega
  unfold currentPosts pageSlice
  rw [List.drop_eq_nil_of_le h4, List.take_nil]

/-- Claim C6 witness: a one-page narrow state whose `currentPage` is 2 shows
an empty slice. -/
theorem currentPosts_empty_witness : currentPosts overshotState = [] :=
  currentPosts_empty_beyond_totalPages overshotState (by decide)

/-- Claim C5: `getPageNumbers` computes exactly the specification's windowing
algorithm (`start = max(1, currentPage - floor(maxVisible / 2))`;
`end = min(totalPages, start + maxVisible - 1)`; slide `start` left when the
window is short; return `[start .. end]`), and with `totalPages = 10`,
`maxVisiblePageButtons = 5` the pages are `[1..5]` at `currentPage = 1`,
`[6..10]` at `currentPage = 10`, and `[3..7]` at `currentPage = 5`. -/
theorem getPageNumbers_matches_algorithm :
    (∀ s : BrowserState, getPageNumbers s =
        visiblePageNumbersSpec (totalPages s) (maxVisiblePages s.isMobile) s.currentPage) ∧
    getPageNumbers { initState with posts := List.replicate 80 post0, currentPage := 1 } =
      [1, 2, 3, 4, 5] ∧
    getPageNumbers { initState with posts := List.replicate 80 post0, currentPage := 10 } =
      [6, 7, 8, 9, 10] ∧
    getPageNumbers { initState with posts := List.replicate 80 post0, currentPage := 5 } =
      [3, 4, 5, 6, 7] :=
  ⟨fun _ => rfl, by decide, by decide, by decide⟩

lemma fetchPosts_frame (r : FetchResponse) (s : BrowserState) :
    (fetchPosts r s).loading = false ∧ (fetchPosts r s).currentPage = s.currentPage ∧
    (fetchPosts r s).isMobile = s.isMobile := by
  unfold fetchPosts
  cases h : fetchTry r <;> simp

lemma totalPages_set_currentPage (s : BrowserState) (c : Nat) :
    totalPages { s with currentPage := c } = totalPages s := rfl

lemma totalPages_nil (s : BrowserState) (hp : s.posts = []) : totalPages s = 0 := by
  unfold totalPages totalPagesFn
  rw [hp]
  cases s.isMobile <;> simp [postsPerPage]

lemma reachable_core (s : BrowserState) (hs : Reachable s) :
    1 ≤ s.currentPage ∧ s.posts.length ≤ 100 ∧
    (s.loading = true → s.posts = [] ∧ s.currentPage = 1) := by
  induction hs with
  | init => simp [initState]
  | resize w s' hr ih => exact ih
  | fetch r s' hr hload ih =>
    obtain ⟨h1, _h2, h3⟩ := ih
    obtain ⟨hp, hc⟩ := h3 hload
    cases h : fetchTry r with
    | ok data =>
      refine ⟨?_, ?_, ?_⟩ <;> simp [fetchPosts, h, hc, List.length_take]
    | error e =>
      refine ⟨?_, ?_, ?_⟩ <;> simp [fetchPosts, h, hc, hp]
  | nav n s' hr ih =>
    obtain ⟨h1, h2, h3⟩ := ih
    by_cases hcnd : 1 ≤ n ∧ n ≤ (totalPages s' : Int)
    · simp only [handlePageChange, if_pos hcnd]
      refine ⟨by omega, h2, ?_⟩
      intro hl
      exfalso
      obtain ⟨hp, _hc⟩ := h3 hl
      have ht : totalPages s' = 0 := totalPages_nil s' hp
      omega
    · simp only [handlePageChange, if_neg hcnd]
      exact ⟨h1, h2, h3⟩

/-- Claim C3 (counterexample): `wideState100` is reachable — resize narrow,
fetch 100 posts, navigate to page 25 of 25, resize wide — and there
`totalPages = 13 ≥ 1` while `currentPage = 25` lies outside
`[1, totalPages]`; so the invariant is not preserved by viewport resize. -/
theorem currentPage_escapes_on_resize :
    Reachable wideState100 ∧ 1 ≤ totalPages wideState100 ∧
    totalPages wideState100 < wideState100.currentPage := by
  refine ⟨?_, by decide, by decide⟩
  have h0 : Reachable initState := Reachable.init
  have h1 := Reachable.resize 500 _ h0
  have h2 := Reachable.fetch (.http true (List.replicate 100 post0)) _ h1 rfl
  have h3 := Reachable.nav 25 _ h2
  have h4 := Reachable.resize 1000 _ h3
  exact h4

/-- Claim C3 (amended): every reachable state has `currentPage ≥ 1`, and the
invariant `currentPage ∈ [1, totalPages]` (whenever `totalPages ≥ 1`) is
preserved by page navigation from any state and by the fetch completion from
any reachable loading state; a viewport resize, however, can break it. -/
theorem currentPage_invariant_amended :
    (∀ s : BrowserState, Reachable s → 1 ≤ s.currentPage) ∧
    (∀ (s : BrowserState) (n : Int),
      pageInvariant s → pageInvariant (handlePageChange n s)) ∧
    (∀ (s : BrowserState) (r : FetchResponse), Reachable s → s.loading = true →
      pageInvariant (fetchPosts r s)) := by
  refine ⟨fun s hs => (reachable_core s hs).1, ?_, ?_⟩
  · intro s n hinv
    by_cases hcnd : 1 ≤ n ∧ n ≤ (totalPages s : Int)
    · simp only [handlePageChange, if_pos hcnd]
      unfold pageInvariant
      rw [totalPages_set_currentPage]
      dsimp only
      constructor
      · omega
      · intro _
        omega
    · simp only [handlePageChange, if_neg hcnd]
      exact hinv
  · intro s r hs hload
    have hc : s.currentPage = 1 := ((reachable_core s hs).2.2 hload).2
    have hcp : (fetchPosts r s).currentPage = 1 := by
      rw [(fetchPosts_frame r s).2.1, hc]
    unfold pageInvariant
    rw [hcp]
    exact ⟨le_refl 1, fun h => h⟩

/-- Claim C3 witness: the initial state satisfies `currentPage ≥ 1`, and an
in-range navigation preserves the pagination invariant. -/
theorem currentPage_invariant_amended_witness :
    1 ≤ initState.currentPage ∧ pageInvariant (handlePageChange 7 pagedState) :=
  ⟨currentPage_invariant_amended.1 initState Reachable.init,
   currentPage_invariant_amended.2.1 pagedState 7 ⟨by decide, fun _ => by decide⟩⟩

/-- Claim C7: a non-ok HTTP response sets the error to the fixed message
`"Failed to fetch posts"` and clears `loading` while leaving `posts` alone;
a thrown `Error` surfaces its own message; a thrown non-`Error` value
surfaces the generic fallback `"An error occurred"`. -/
theorem fetchPosts_error_handling (s : BrowserState) (data : List Post) (m : String) :
    ((fetchPosts (.http false data) s).error = some "Failed to fetch posts" ∧
      (fetchPosts (.http false data) s).loading = false ∧
      (fetchPosts (.http false data) s).posts = s.posts) ∧
    ((fetchPosts (.throwErr m) s).error = some m ∧
      (fetchPosts (.throwErr m) s).loading = false ∧
      (fetchPosts (.throwErr m) s).posts = s.posts) ∧
    ((fetchPosts .throwNonError s).error = some "An error occurred" ∧
      (fetchPosts .throwNonError s).loading = false ∧
      (fetchPosts .throwNonError s).posts = s.posts) :=
  ⟨⟨rfl, rfl, rfl⟩, ⟨rfl, rfl, rfl⟩, ⟨rfl, rfl, rfl⟩⟩

/-- Claim C8: a successful fetch stores exactly the first
`min(100, data.length)` records of the response in order, and every
reachable state holds at most 100 posts. -/
theorem fetchPosts_stores_first100 :
    (∀ (s : BrowserState) (data : List Post),
      (fetchPosts (.http true data) s).posts = data.take 100 ∧
      (fetchPosts (.http true data) s).posts.length = min 100 data.length) ∧
    (∀ s : BrowserState, Reachable s → s.posts.length ≤ 100) := by
  refine ⟨fun s data => ⟨rfl, ?_⟩, fun s hs => (reachable_core s hs).2.1⟩
  simp [fetchPosts, fetchTry, List.length_take]

/-- Claim C8 witness: a 150-record response leaves exactly its first 100
records in the state, and the initial state is within the bound. -/
theorem fetchPosts_stores_first100_witness :
    (fetchPosts (.http true (List.replicate 150 post0)) initState).posts =
      (List.replicate 150 post0).take 100 ∧
    initState.posts.length ≤ 100 :=
  ⟨(fetchPosts_stores_first100.1 initState (List.replicate 150 post0)).1,
   fetchPosts_stores_first100.2 initState Reachable.init⟩

/-- Claim C9: `truncateText` returns the text unchanged when its length is
at most the limit, and otherwise returns the first `limit` characters
followed by the three-character ellipsis, for a total length of
`limit + 3`. -/
theorem truncateText_spec (text : List Char) (limit : Nat) :
    (text.length ≤ limit → truncateText text limit = text) ∧
    (limit < text.length →
      truncateText text limit = text.take limit ++ ['.', '.', '.'] ∧
      (truncateText text limit).length = limit + 3) := by
  constructor
  · intro h
    unfold truncateText
    rw [if_neg (by omega)]
  · intro h
    have he : truncateText text limit = text.take limit ++ ['.', '.', '.'] := by
      unfold truncateText
      rw [if_pos h]
    refine ⟨he, ?_⟩
    rw [he]
    simp [List.length_take]
    omega

/-- Claim C9 witness: truncating 150 characters at the default limit 120
yields 123 characters, and a short text is returned unchanged. -/
theorem truncateText_spec_witness :
    (truncateText (List.replicate 150 'a') 120).length = 123 ∧
    truncateText ['s', 'h', 'o', 'r', 't'] 120 = ['s', 'h', 'o', 'r', 't'] :=
  ⟨((truncateText_spec (List.replicate 150 'a') 120).2 (by simp)).2,
   (truncateText_spec ['s', 'h', 'o', 'r', 't'] 120).1 (by decide)⟩

/-- Claim C10: `getPostColorClass` reads the palette at `index % 6`, the
read is always in bounds (it never yields `undefined`), and the assignment
is 6-periodic. -/
theorem getPostColorClass_safe (index : Nat) :
    getPostColorClass index = colors.get? (index % 6) ∧
    (getPostColorClass index).isSome = true ∧
    getPostColorClass (index + 6) = getPostColorClass index := by
  have hlen : colors.length = 6 := rfl
  refine ⟨?_, ?_, ?_⟩
  · unfold getPostColorClass
    rw [hlen]
  · have h6 : index % colors.length < colors.length :=
      Nat.mod_lt _ (by decide)
    unfold getPostColorClass
    rw [List.get?_eq_get h6]
    rfl
  · unfold getPostColorClass
    rw [hlen, Nat.add_mod_right]
